import Mathlib

/-!
# Verification of the EV dashboard aggregation pipeline (`src/app.py`)

This file embeds the data model and the `load_and_analyze_data` function of
`app.py` (a pandas/streamlit script) in Lean and proves properties of the
embedding.

Modelling decisions, faithful to pandas semantics:

* A CSV row is a `Row` of four optional fields; a missing cell (pandas `NaN`)
  is `none`.  `Electric Range` values and derived means are modelled with `ℚ`
  (the embedding idealises IEEE-754 float arithmetic as exact rational
  arithmetic).
* `df.groupby(ks).agg()` drops rows whose key contains `NaN` (pandas default
  `dropna=True`) and emits one output row per distinct key, keys sorted
  ascending (pandas default `sort=True`).
* `df.sort_values(by=c, ascending=False)` is implemented by pandas
  (`pandas.core.sorting.nargsort`) as: reverse the non-NaN values together
  with their indices, argsort them **ascending**, reverse the resulting
  permutation, then append the NaN positions in their original order
  (`na_position="last"`).  The two reversals cancel on every class of tied
  values, so rows with equal keys keep their pre-sort relative order
  whenever the underlying argsort is stable.  The embedding therefore
  models line 36 and line 46 as: reverse, stable ascending sort
  (`sortAsc`, an insertion sort), reverse again; the numpy introsort
  degenerates to a stable insertion sort on segments of fewer than 16
  elements, so the model is exact on small instances, and on larger inputs
  the numpy tie order is implementation-defined.
* `series.mean()` averages the non-`NaN` entries and yields `NaN` (here
  `none`) when there are none.
* `@st.cache_data` is modelled as an explicit association-list cache keyed by
  the argument; it stores whatever value the function returns, including the
  `(None, None)` value returned after a caught load failure.
* The filesystem is a function from paths to `none` (no such file, raising
  `FileNotFoundError`) or `some (Except.error e)` (any other read/parse
  failure) or `some (Except.ok rows)` (successful parse).
-/

namespace EVApp

/-! ## Generic stable insertion sort (model of a stable ascending argsort) -/

def insertLe {α : Type} (le : α → α → Bool) (x : α) : List α → List α
  | [] => [x]
  | y :: ys => if le x y then x :: y :: ys else y :: insertLe le x ys

def sortAsc {α : Type} (le : α → α → Bool) : List α → List α
  | [] => []
  | x :: xs => insertLe le x (sortAsc le xs)

/-! ## Data model -/

/-- One row of the input CSV.  `none` models a missing cell (`NaN`). -/
structure Row where
  make : Option String
  modelYear : Option Int
  evType : Option String
  electricRange : Option ℚ
deriving DecidableEq, Repr

/-- A row of derived table A: `(Make, Model Year, Total EVs)`. -/
structure ARow where
  make : String
  modelYear : Int
  total : Nat
deriving DecidableEq, Repr

/-- A row of derived table B: `(Electric Vehicle Type, Average Electric
Range (Miles))`; the average is `none` when every range in the group is
missing (pandas `NaN` mean). -/
structure BRow where
  evType : String
  avg : Option ℚ
deriving DecidableEq, Repr

/-! ## Table A pipeline (lines 33–39 of `app.py`) -/

/-- The grouping key of a row for table A; `none` when `Make` or
`Model Year` is missing (such rows are dropped by `groupby`). -/
def keyOf (r : Row) : Option (String × Int) :=
  match r.make, r.modelYear with
  | some m, some y => some (m, y)
  | _, _ => none

/-- Code-point lexicographic order on character lists: the order Python
(and hence pandas) compares strings in. -/
def ltChars : List Char → List Char → Bool
  | [], [] => false
  | [], _ :: _ => true
  | _ :: _, [] => false
  | c :: cs, d :: ds =>
    if c.toNat < d.toNat then true
    else if d.toNat < c.toNat then false
    else ltChars cs ds

/-- Strict code-point lexicographic order on strings. -/
def ltStr (a b : String) : Bool := ltChars a.data b.data

/-- Ascending lexicographic order on `(Make, Model Year)` keys, the order in
which pandas `groupby(sort=True)` emits groups. -/
def leKey (a b : String × Int) : Bool :=
  ltStr a.1 b.1 || (decide (a.1 = b.1) && decide (a.2 ≤ b.2))

/-- Line 33: `df.groupby(["Make", "Model Year"]).size().reset_index(name="Total EVs")`.
One row per distinct present key, keys ascending, `total` = group size. -/
def ev_counts_by_make_year (df : List Row) : List ARow :=
  (sortAsc leKey (df.filterMap keyOf).dedup).map fun k =>
    ⟨k.1, k.2, (df.filterMap keyOf).count k⟩

/-- Ascending comparison on the `Total EVs` column. -/
def leTotal (a b : ARow) : Bool := decide (a.total ≤ b.total)

/-- Line 36: `sort_values(by="Total EVs", ascending=False)` — pandas
reverses the rows, argsorts the column ascending (stably, in this model),
and reverses the result, so tied counts keep their pre-sort order (no NaNs
arise among counts). -/
def sort_values_total_desc (l : List ARow) : List ARow :=
  (sortAsc leTotal l.reverse).reverse

/-- The reassigned `ev_counts_by_make_year` after line 36. -/
def ev_counts_sorted (df : List Row) : List ARow :=
  sort_values_total_desc (ev_counts_by_make_year df)

/-- Line 39: `top_10_ev_counts = ev_counts_by_make_year.head(10)`. -/
def top_10_ev_counts (df : List Row) : List ARow :=
  (ev_counts_sorted df).take 10

/-! ## Table B pipeline (lines 43–46 of `app.py`) -/

/-- Ascending (non-strict) order on type names, the order
`groupby(sort=True)` emits the `Electric Vehicle Type` groups in. -/
def leStr (a b : String) : Bool := !ltStr b a

/-- The `Electric Range` values contributing to the mean of type `t`: the
ranges of the rows of that type, missing values skipped (`mean` skipna). -/
def rangesOfType (df : List Row) (t : String) : List ℚ :=
  (df.filter fun r => decide (r.evType = some t)).filterMap (·.electricRange)

/-- `series.mean()`: `NaN` (`none`) on an all-missing group, else the sum of
the present values divided by their number. -/
def meanOf (vs : List ℚ) : Option ℚ :=
  if vs.length = 0 then none else some (vs.sum / (vs.length : ℚ))

/-- Line 43: `df.groupby("Electric Vehicle Type")["Electric Range"].mean()
.reset_index(name="Average Electric Range (Miles)")`.  Rows with a missing
type are dropped; one row per distinct present type, ascending. -/
def avg_range_by_type_grouped (df : List Row) : List BRow :=
  (sortAsc leStr (df.filterMap (·.evType)).dedup).map fun t =>
    ⟨t, meanOf (rangesOfType df t)⟩

/-- Ascending comparison on the average column; only applied to non-`NaN`
entries (`nargsort` argsorts the non-NaN positions). -/
def leAvg (a b : BRow) : Bool :=
  match a.avg, b.avg with
  | none, _ => true
  | some _, none => false
  | some x, some y => decide (x ≤ y)

/-- Whether the average of a B-row is present (non-`NaN`). -/
def avgSome (b : BRow) : Bool := b.avg.isSome

/-- Line 46: `sort_values(by="Average Electric Range (Miles)", ascending=False)`
— pandas reverses the non-NaN entries, argsorts them ascending (stably, in
this model), reverses the result, and appends the NaN entries in their
original order (`na_position="last"`); tied non-NaN averages keep their
pre-sort order. -/
def sort_values_avg_desc (l : List BRow) : List BRow :=
  (sortAsc leAvg (l.filter fun b => avgSome b).reverse).reverse
    ++ l.filter fun b => !avgSome b

/-- The reassigned `avg_range_by_type` after line 46. -/
def avg_range_by_type (df : List Row) : List BRow :=
  sort_values_avg_desc (avg_range_by_type_grouped df)

/-! ## `load_and_analyze_data`, error handling, caching, main script -/

/-- The filesystem seen by `pd.read_csv`: `none` = no such file
(`FileNotFoundError`), `some (Except.error e)` = any other load failure with
message `e`, `some (Except.ok rows)` = parsed dataset. -/
def FS : Type := String → Option (Except String (List Row))

/-- Message of the `except FileNotFoundError` branch (line 25). -/
def fileNotFoundMsg (p : String) : String :=
  "Error: The file \x27" ++ p ++ "\x27 was not found. Please ensure it is in the correct directory."

/-- Message of the `except Exception` branch (line 28). -/
def loadErrorMsg (e : String) : String :=
  "An error occurred during file loading: " ++ e

/-- What one call of the function produces: the `st.error` message, if any,
and the returned pair of tables (`none` models the `return None, None`). -/
structure AppOutput where
  errorMsg : Option String
  tables : Option (List ARow × List BRow)
deriving DecidableEq, Repr

/-- The body of `load_and_analyze_data` (lines 20–48). -/
def load_and_analyze_data (fs : FS) (path : String) : AppOutput :=
  match fs path with
  | none => ⟨some (fileNotFoundMsg path), none⟩
  | some (Except.error e) => ⟨some (loadErrorMsg e), none⟩
  | some (Except.ok df) => ⟨none, some (top_10_ev_counts df, avg_range_by_type df)⟩

/-- The `@st.cache_data` cache: one entry per already-called argument,
holding the value the body returned (streamlit caches the return value of
every completed call, including the `(None, None)` of a caught failure). -/
def processStartCache : List (String × AppOutput) := []

/-- Result of one cached invocation: the output, the cache afterwards, and
whether the body actually ran (i.e. whether a load was attempted). -/
structure CallResult where
  out : AppOutput
  cache : List (String × AppOutput)
  bodyRan : Bool
deriving DecidableEq, Repr

/-- One invocation of the `@st.cache_data`-wrapped function: on a cache hit
return the stored output without running the body; on a miss run the body
and store whatever it returned. -/
def cached_call (fs : FS) (cache : List (String × AppOutput)) (path : String) :
    CallResult :=
  match cache.lookup path with
  | some out => ⟨out, cache, false⟩
  | none =>
      let out := load_and_analyze_data fs path
      ⟨out, cache ++ [(path, out)], true⟩

/-- Line 56: the hard-coded input path. -/
def FILE_PATH : String := "EV Population Dataset.csv"

/-- Line 61 guard: the two display sections render iff both returned tables
are present (`is not None`). -/
def rendered (o : AppOutput) : Bool := o.tables.isSome

/-! ## The function body as statements over its local variables

Each pandas call in lines 33–46 returns a new dataframe and is bound to a
local; none of them mutates its input.  The embedding makes that explicit:
each line is a state transformer on the locals, and only the assigned local
changes. -/

/-- The local variables of `load_and_analyze_data` after the load. -/
structure Locals where
  df : List Row
  ev_counts : List ARow
  top10 : List ARow
  avg_b : List BRow
deriving DecidableEq, Repr

def line33 (s : Locals) : Locals := { s with ev_counts := ev_counts_by_make_year s.df }

def line36 (s : Locals) : Locals := { s with ev_counts := sort_values_total_desc s.ev_counts }

def line39 (s : Locals) : Locals := { s with top10 := s.ev_counts.take 10 }

def line43 (s : Locals) : Locals := { s with avg_b := avg_range_by_type_grouped s.df }

def line46 (s : Locals) : Locals := { s with avg_b := sort_values_avg_desc s.avg_b }

/-- Lines 33–46 in program order. -/
def analysisBody (s : Locals) : Locals :=
  line46 (line43 (line39 (line36 (line33 s))))

/-! ## Spec-side definitions (for refinement statements) -/

/-- Modelled from the spec: "the arithmetic mean of the Electric Range
values over exactly the input rows whose Electric Vehicle Type equals that
type of the row, where rows with a missing Electric Range are excluded from both
the sum and the divisor". -/
def specMeanForType (df : List Row) (t : String) : Option ℚ :=
  let contributing :=
    df.filter fun r => decide (r.evType = some t) && r.electricRange.isSome
  if contributing.length = 0 then none
  else some ((contributing.map fun r => r.electricRange.getD 0).sum
    / (contributing.length : ℚ))

/-- The displayed descending order on averages, with `NaN` (`none`)
placed last: `geOptRat x y` says `x` may appear above `y`. -/
def geOptRat (x y : Option ℚ) : Prop :=
  match x, y with
  | _, none => True
  | none, some _ => False
  | some a, some b => b ≤ a

/-! ## Concrete inputs used for evaluation -/

/-- The worked example of the spec: `[(Tesla,2020,BEV,250), (Tesla,2020,BEV,270),
(Nissan,2019,BEV,150)]`. -/
def exRows : List Row :=
  [⟨some "Tesla", some 2020, some "BEV", some 250⟩,
   ⟨some "Tesla", some 2020, some "BEV", some 270⟩,
   ⟨some "Nissan", some 2019, some "BEV", some 150⟩]

/-- A dataset with a row missing `Electric Range` but carrying key fields. -/
def missingRangeRows : List Row :=
  [⟨some "Tesla", some 2020, some "BEV", none⟩,
   ⟨some "Tesla", some 2020, some "BEV", some 250⟩]

/-- A dataset with a row missing `Electric Vehicle Type`. -/
def missingTypeRows : List Row :=
  [⟨some "Tesla", some 2020, none, some 100⟩,
   ⟨some "Nissan", some 2019, some "BEV", some 150⟩]

/-- A filesystem with no files at all. -/
def fsEmpty : FS := fun _ => none

/-- A filesystem whose files all hold the worked example of the spec. -/
def fsEx : FS := fun _ => some (Except.ok exRows)

/-- A filesystem whose files all hold `missingRangeRows`. -/
def fsMissingRange : FS := fun _ => some (Except.ok missingRangeRows)

/-- A filesystem whose files all hold `missingTypeRows`. -/
def fsMissingType : FS := fun _ => some (Except.ok missingTypeRows)

/-! ## Lemmas about the sort model -/

theorem insertLe_perm {α : Type} (le : α → α → Bool) (x : α) (l : List α) :
    (insertLe le x l).Perm (x :: l) := by
  induction l with
  | nil => exact List.Perm.refl _
  | cons y ys ih =>
    cases h : le x y with
    | true => simp [insertLe, h]
    | false =>
      simp only [insertLe, h, Bool.false_eq_true, if_false]
      exact (ih.cons y).trans (List.Perm.swap x y ys)

theorem sortAsc_perm {α : Type} (le : α → α → Bool) (l : List α) :
    (sortAsc le l).Perm l := by
  induction l with
  | nil => exact List.Perm.refl _
  | cons x xs ih => exact (insertLe_perm le x (sortAsc le xs)).trans (ih.cons x)

theorem insertLe_pairwise {α : Type} (le : α → α → Bool)
    (htot : ∀ a b, le a b = true ∨ le b a = true)
    (htr : ∀ a b c, le a b = true → le b c = true → le a c = true)
    (x : α) (l : List α) (hl : l.Pairwise fun a b => le a b = true) :
    (insertLe le x l).Pairwise fun a b => le a b = true := by
  induction l with
  | nil => simp [insertLe]
  | cons y ys ih =>
    rcases List.pairwise_cons.mp hl with ⟨hy, hys⟩
    cases h : le x y with
    | true =>
      simp only [insertLe, h, if_true]
      refine List.pairwise_cons.mpr ⟨?_, hl⟩
      intro z hz
      rcases List.mem_cons.mp hz with hz | hz
      · exact hz ▸ h
      · exact htr x y z h (hy z hz)
    | false =>
      have hyx : le y x = true := by
        rcases htot x y with h' | h'
        · exact absurd h' (by simp [h])
        · exact h'
      simp only [insertLe, h, Bool.false_eq_true, if_false]
      refine List.pairwise_cons.mpr ⟨?_, ih hys⟩
      intro z hz
      rcases List.mem_cons.mp ((insertLe_perm le x ys).mem_iff.mp hz) with hz | hz
      · exact hz ▸ hyx
      · exact hy z hz

theorem sortAsc_pairwise {α : Type} (le : α → α → Bool)
    (htot : ∀ a b, le a b = true ∨ le b a = true)
    (htr : ∀ a b c, le a b = true → le b c = true → le a c = true)
    (l : List α) :
    (sortAsc le l).Pairwise fun a b => le a b = true := by
  induction l with
  | nil => simp [sortAsc]
  | cons x xs ih => exact insertLe_pairwise le htot htr x (sortAsc le xs) ih

theorem sort_values_avg_desc_perm (l : List BRow) :
    (sort_values_avg_desc l).Perm l := by
  unfold sort_values_avg_desc
  have h1 : ((sortAsc leAvg (l.filter fun b => avgSome b).reverse).reverse).Perm
      (l.filter fun b => avgSome b) :=
    (List.reverse_perm _).trans ((sortAsc_perm _ _).trans (List.reverse_perm _))
  exact (h1.append (List.Perm.refl _)).trans (List.filter_append_perm _ l)

theorem length_filterMap_eq_countP {α β : Type} (f : α → Option β) (l : List α) :
    (l.filterMap f).length = l.countP fun a => (f a).isSome := by
  induction l with
  | nil => rfl
  | cons a tl ih =>
    rw [List.filterMap_cons, List.countP_cons]
    cases hf : f a <;> simp [hf, ih]

theorem erase_filter_of_neg {α : Type} [DecidableEq α] (p : α → Bool) (r : α)
    (hp : p r = false) (l : List α) : (l.erase r).filter p = l.filter p := by
  induction l with
  | nil => rfl
  | cons a tl ih =>
    rw [List.erase_cons]
    by_cases ha : a = r
    · subst ha
      simp [List.filter_cons, hp]
    · have hne : (a == r) = false := by simp [ha]
      simp only [hne, Bool.false_eq_true, if_false, List.filter_cons, ih]

theorem erase_filterMap_of_none {α β : Type} [DecidableEq α] (f : α → Option β)
    (r : α) (hf : f r = none) (l : List α) :
    (l.erase r).filterMap f = l.filterMap f := by
  induction l with
  | nil => rfl
  | cons a tl ih =>
    rw [List.erase_cons]
    by_cases ha : a = r
    · subst ha
      simp [hf]
    · have hne : (a == r) = false := by simp [ha]
      simp only [hne, Bool.false_eq_true, if_false, List.filterMap_cons, ih]

theorem erase_filter_filterMap_of_none {α β : Type} [DecidableEq α]
    (p : α → Bool) (f : α → Option β) (r : α) (hf : f r = none) (l : List α) :
    ((l.erase r).filter p).filterMap f = (l.filter p).filterMap f := by
  induction l with
  | nil => rfl
  | cons a tl ih =>
    rw [List.erase_cons]
    by_cases ha : a = r
    · subst ha
      cases hpa : p a <;> simp [List.filter_cons, hpa, hf]
    · have hne : (a == r) = false := by simp [ha]
      cases hpa : p a <;>
        simp only [hne, Bool.false_eq_true, if_false, List.filter_cons, hpa,
          if_true, if_false, List.filterMap_cons, ih]

theorem filterMap_filter_asMap {α β : Type} (q : α → Bool) (g : α → Option β)
    (d : β) (l : List α) :
    (l.filter q).filterMap g
      = (l.filter fun a => q a && (g a).isSome).map fun a => (g a).getD d := by
  induction l with
  | nil => rfl
  | cons a tl ih =>
    cases hq : q a
    · simp [List.filter_cons, hq, ih]
    · cases hg : g a with
      | none => simp [List.filter_cons, hq, hg, ih]
      | some v => simp [List.filter_cons, hq, hg, ih]

theorem meanOf_ranges_eq_spec (df : List Row) (t : String) :
    meanOf (rangesOfType df t) = specMeanForType df t := by
  unfold meanOf specMeanForType rangesOfType
  rw [filterMap_filter_asMap (fun r => decide (r.evType = some t))
    (fun r => r.electricRange) 0 df]
  simp

theorem countK_beq_irrel (l : List (String × Int)) (k : String × Int) :
    @List.count _ instBEqOfDecidableEq k l = l.count k := by
  show List.countP (fun a => @BEq.beq _ instBEqOfDecidableEq a k) l
      = List.countP (fun a => a == k) l
  refine List.countP_congr fun a _ => ?_
  by_cases h : a = k <;> simp [h, instBEqOfDecidableEq]

theorem leTotal_tot (a b : ARow) : leTotal a b = true ∨ leTotal b a = true := by
  simp only [leTotal, decide_eq_true_eq]
  exact Nat.le_total _ _

theorem leTotal_trns (a b c : ARow) :
    leTotal a b = true → leTotal b c = true → leTotal a c = true := by
  simp only [leTotal, decide_eq_true_eq]
  exact Nat.le_trans

theorem leAvg_tot (a b : BRow) : leAvg a b = true ∨ leAvg b a = true := by
  unfold leAvg
  rcases a.avg with _ | x <;> rcases b.avg with _ | y
  · exact Or.inl rfl
  · exact Or.inl rfl
  · exact Or.inr rfl
  · simp only [decide_eq_true_eq]
    exact le_total x y

theorem leAvg_trns (a b c : BRow) :
    leAvg a b = true → leAvg b c = true → leAvg a c = true := by
  unfold leAvg
  rcases a.avg with _ | x <;> rcases b.avg with _ | y <;> rcases c.avg with _ | z <;>
      simp only [decide_eq_true_eq] <;> intro h1 h2 <;>
      first
        | trivial
        | exact le_trans h1 h2

theorem leAvg_to_geOptRat (a b : BRow) (h : leAvg a b = true) :
    geOptRat b.avg a.avg := by
  unfold leAvg at h
  unfold geOptRat
  rcases ha : a.avg with _ | x <;> rcases hb : b.avg with _ | y <;>
    rw [ha, hb] at h <;> simp_all

theorem pairwise_of_mem_rel {α : Type} {R : α → α → Prop} (m : List α)
    (h : ∀ b ∈ m, ∀ a, R a b) : m.Pairwise R := by
  induction m with
  | nil => exact List.Pairwise.nil
  | cons x xs ih =>
    refine List.pairwise_cons.mpr ⟨fun y hy => h y (List.mem_cons_of_mem x hy) x, ?_⟩
    exact ih fun b hb a => h b (List.mem_cons_of_mem x hb) a

/-- On a successful parse, the function returns exactly the two derived
tables and no error message. -/
theorem load_ok (fs : FS) (path : String) (df : List Row)
    (hload : fs path = some (Except.ok df)) :
    load_and_analyze_data fs path
      = ⟨none, some (top_10_ev_counts df, avg_range_by_type df)⟩ := by
  unfold load_and_analyze_data
  rw [hload]

/-! ## Claim theorems -/

/-- **C9.** `load_and_analyze_data` does not mutate the loaded input
dataset: running lines 33–46 over the locals leaves `df` exactly as loaded
(every pandas call in the body — `groupby`/`size`/`reset_index`/
`sort_values`/`head`/`mean` — returns a new frame and the body never
rebinds or writes `df`), and the only products of the function are the two
derived tables, which are pure functions of the loaded rows. -/
theorem C9_no_mutation_of_input (s : Locals) :
    (analysisBody s).df = s.df
    ∧ (analysisBody s).top10 = top_10_ev_counts s.df
    ∧ (analysisBody s).avg_b = avg_range_by_type s.df
    ∧ (analysisBody s).ev_counts = ev_counts_sorted s.df :=
  ⟨rfl, rfl, rfl, rfl⟩

/-- **C2.** For every input dataset that loads successfully, table A
returned by `load_and_analyze_data` has at most 10 rows, and the
`Total EVs` value of each row is ≥ the `Total EVs` value of the next row. -/
theorem C2_tableA_top10_sorted (fs : FS) (path : String) (df : List Row)
    (hload : fs path = some (Except.ok df)) :
    (load_and_analyze_data fs path).tables
        = some (top_10_ev_counts df, avg_range_by_type df)
    ∧ (top_10_ev_counts df).length ≤ 10
    ∧ (top_10_ev_counts df).Pairwise fun a b => b.total ≤ a.total := by
  refine ⟨by rw [load_ok fs path df hload], ?_, ?_⟩
  · unfold top_10_ev_counts
    rw [List.length_take]
    exact min_le_left _ _
  · unfold top_10_ev_counts ev_counts_sorted sort_values_total_desc
    have hs := sortAsc_pairwise leTotal leTotal_tot leTotal_trns
      (ev_counts_by_make_year df).reverse
    have hrev : ((sortAsc leTotal (ev_counts_by_make_year df).reverse).reverse).Pairwise
        fun a b : ARow => leTotal b a = true := List.pairwise_reverse.mpr hs
    have hrev' : ((sortAsc leTotal (ev_counts_by_make_year df).reverse).reverse).Pairwise
        fun a b : ARow => b.total ≤ a.total :=
      hrev.imp fun h => by simpa [leTotal] using h
    exact List.Pairwise.sublist (List.take_sublist 10 _) hrev'

/-- Witness for C2 at the worked example of the spec. -/
theorem C2_tableA_top10_sorted_witness :
    (load_and_analyze_data fsEx FILE_PATH).tables
        = some (top_10_ev_counts exRows, avg_range_by_type exRows)
    ∧ (top_10_ev_counts exRows).length ≤ 10
    ∧ (top_10_ev_counts exRows).Pairwise fun a b => b.total ≤ a.total :=
  C2_tableA_top10_sorted fsEx FILE_PATH exRows rfl

/-- **C4.** For every input dataset that loads successfully, the `Total EVs`
counts over all `(Make, Model Year)` groups (before truncation to the top
10) sum to the number of input rows in which both `Make` and `Model Year`
are present. -/
theorem C4_counts_partition_rows (fs : FS) (path : String) (df : List Row)
    (hload : fs path = some (Except.ok df)) :
    ((ev_counts_by_make_year df).map fun a => a.total).sum
      = df.countP fun r => (keyOf r).isSome := by
  unfold ev_counts_by_make_year
  rw [List.map_map]
  have hperm : ((sortAsc leKey (df.filterMap keyOf).dedup).map
        fun k => (df.filterMap keyOf).count k).Perm
      (((df.filterMap keyOf).dedup).map fun k => (df.filterMap keyOf).count k) :=
    (sortAsc_perm leKey _).map _
  calc ((sortAsc leKey (df.filterMap keyOf).dedup).map
          fun k => (df.filterMap keyOf).count k).sum
      = (((df.filterMap keyOf).dedup).map
          fun k => (df.filterMap keyOf).count k).sum := hperm.sum_eq
    _ = (((df.filterMap keyOf).dedup).map
          fun k => @List.count _ instBEqOfDecidableEq k (df.filterMap keyOf)).sum := by
        exact congrArg List.sum
          (List.map_congr_left fun k _ => (countK_beq_irrel _ k).symm)
    _ = (df.filterMap keyOf).length := List.sum_map_count_dedup_eq_length _
    _ = df.countP fun r => (keyOf r).isSome := length_filterMap_eq_countP keyOf df

/-- Witness for C4 at the worked example of the spec. -/
theorem C4_counts_partition_rows_witness :
    ((ev_counts_by_make_year exRows).map fun a => a.total).sum
      = exRows.countP fun r => (keyOf r).isSome :=
  C4_counts_partition_rows fsEx FILE_PATH exRows rfl

/-- A row of the NaN segment of the descending sort has a `none` average. -/
theorem avg_none_of_mem_nanPart (b : BRow) {l : List BRow}
    (hb : b ∈ l.filter fun x => !avgSome x) : b.avg = none := by
  have h2 := (List.mem_filter.mp hb).2
  cases havg : b.avg with
  | none => rfl
  | some v =>
    simp only [avgSome, havg, Option.isSome_some, Bool.not_true] at h2
    exact absurd h2 (by simp)

/-- `geOptRat x none` always holds: a present average may sit above a `NaN`
one, and `NaN`s sit together at the end. -/
theorem geOptRat_none (x : Option ℚ) : geOptRat x none := by
  unfold geOptRat
  cases x <;> trivial

/-- **C3.** For every input dataset that loads successfully, table B has
exactly one row per distinct `Electric Vehicle Type` value present in the
input rows (its type column is a permutation of the distinct present types,
with no duplicates), and its `Average Electric Range` column is
non-increasing row-to-row (in the displayed order `geOptRat`, which puts
`NaN` averages last, as `na_position="last"` does). -/
theorem C3_tableB_types_sorted (fs : FS) (path : String) (df : List Row)
    (hload : fs path = some (Except.ok df)) :
    (load_and_analyze_data fs path).tables
        = some (top_10_ev_counts df, avg_range_by_type df)
    ∧ ((avg_range_by_type df).map fun b => b.evType).Perm
        (df.filterMap fun r => r.evType).dedup
    ∧ ((avg_range_by_type df).map fun b => b.evType).Nodup
    ∧ (avg_range_by_type df).Pairwise fun a b => geOptRat a.avg b.avg := by
  have heq : (avg_range_by_type_grouped df).map (fun b => b.evType)
      = sortAsc leStr (df.filterMap fun r => r.evType).dedup := by
    unfold avg_range_by_type_grouped
    rw [List.map_map]
    exact List.map_id' _
  have hperm : ((avg_range_by_type df).map fun b => b.evType).Perm
      (df.filterMap fun r => r.evType).dedup := by
    refine (((sort_values_avg_desc_perm _).map _).trans ?_)
    rw [heq]
    exact sortAsc_perm leStr _
  refine ⟨by rw [load_ok fs path df hload], hperm, ?_, ?_⟩
  · exact hperm.nodup_iff.mpr (List.nodup_dedup _)
  · unfold avg_range_by_type sort_values_avg_desc
    refine List.pairwise_append.mpr ⟨?_, ?_, ?_⟩
    · refine List.pairwise_reverse.mpr ?_
      exact (sortAsc_pairwise leAvg leAvg_tot leAvg_trns _).imp
        fun h => leAvg_to_geOptRat _ _ h
    · refine pairwise_of_mem_rel _ fun b hb a => ?_
      have hbn : b.avg = none := avg_none_of_mem_nanPart b hb
      rw [hbn]
      exact geOptRat_none _
    · intro a _ b hb
      have hbn : b.avg = none := avg_none_of_mem_nanPart b hb
      rw [hbn]
      exact geOptRat_none _

/-- Witness for C3 at the worked example of the spec. -/
theorem C3_tableB_types_sorted_witness :
    (load_and_analyze_data fsEx FILE_PATH).tables
        = some (top_10_ev_counts exRows, avg_range_by_type exRows)
    ∧ ((avg_range_by_type exRows).map fun b => b.evType).Perm
        (exRows.filterMap fun r => r.evType).dedup
    ∧ ((avg_range_by_type exRows).map fun b => b.evType).Nodup
    ∧ (avg_range_by_type exRows).Pairwise fun a b => geOptRat a.avg b.avg :=
  C3_tableB_types_sorted fsEx FILE_PATH exRows rfl

/-- **C5.** For every input dataset that loads successfully and every row of
table B, the average of the row equals the arithmetic mean of the `Electric
Range` values over exactly the input rows whose `Electric Vehicle Type`
equals the type of that row, rows with a missing range excluded from both the
sum and the divisor (`specMeanForType` states that mean in the words of the spec
itself; both sides are `none` when no value contributes). -/
theorem C5_tableB_mean_exact (fs : FS) (path : String) (df : List Row)
    (b : BRow) (hload : fs path = some (Except.ok df))
    (hb : b ∈ avg_range_by_type df) :
    (load_and_analyze_data fs path).tables
        = some (top_10_ev_counts df, avg_range_by_type df)
    ∧ b.avg = specMeanForType df b.evType := by
  refine ⟨by rw [load_ok fs path df hload], ?_⟩
  have hb1 : b ∈ avg_range_by_type_grouped df :=
    (sort_values_avg_desc_perm _).mem_iff.mp hb
  unfold avg_range_by_type_grouped at hb1
  rcases List.mem_map.mp hb1 with ⟨t, _, hbt⟩
  rw [← hbt]
  exact meanOf_ranges_eq_spec df t

/-- Witness for C5 at the `BEV` row of the worked example of the spec (whose
average is `(250 + 270 + 150) / 3 = 670/3`). -/
theorem C5_tableB_mean_exact_witness :
    (load_and_analyze_data fsEx FILE_PATH).tables
        = some (top_10_ev_counts exRows, avg_range_by_type exRows)
    ∧ (⟨"BEV", meanOf (rangesOfType exRows "BEV")⟩ : BRow).avg
        = specMeanForType exRows
            (⟨"BEV", meanOf (rangesOfType exRows "BEV")⟩ : BRow).evType :=
  C5_tableB_mean_exact fsEx FILE_PATH exRows
    ⟨"BEV", meanOf (rangesOfType exRows "BEV")⟩ rfl (List.Mem.head _)

/-- **C6.** For every input dataset that loads successfully, a row whose
`Electric Range` is missing but whose `Make` and `Model Year` are present
is still counted in its `(Make, Model Year)` group of table A (removing it
would lower the `Total EVs` of that group by one), while contributing nothing to
the mean computation of any vehicle type in table B (the contributing
value lists are unchanged when the row is removed). -/
theorem C6_missing_range_counted_in_A_not_in_B (fs : FS) (path : String)
    (df : List Row) (r : Row) (m : String) (y : Int) (t : String)
    (hload : fs path = some (Except.ok df)) (hr : r ∈ df)
    (hm : r.make = some m) (hy : r.modelYear = some y)
    (hnone : r.electricRange = none) :
    (load_and_analyze_data fs path).tables
        = some (top_10_ev_counts df, avg_range_by_type df)
    ∧ (⟨m, y, (df.filterMap keyOf).count (m, y)⟩ : ARow) ∈ ev_counts_by_make_year df
    ∧ (df.filterMap keyOf).count (m, y)
        = ((df.erase r).filterMap keyOf).count (m, y) + 1
    ∧ rangesOfType df t = rangesOfType (df.erase r) t
    ∧ meanOf (rangesOfType df t) = meanOf (rangesOfType (df.erase r) t) := by
  have hkey : keyOf r = some (m, y) := by
    unfold keyOf
    rw [hm, hy]
  have hranges : rangesOfType df t = rangesOfType (df.erase r) t := by
    unfold rangesOfType
    exact (erase_filter_filterMap_of_none _ _ r hnone df).symm
  refine ⟨by rw [load_ok fs path df hload], ?_, ?_, hranges, by rw [hranges]⟩
  · have h1 : (m, y) ∈ df.filterMap keyOf := List.mem_filterMap.mpr ⟨r, hr, hkey⟩
    have h2 : (m, y) ∈ (df.filterMap keyOf).dedup := List.mem_dedup.mpr h1
    have h3 : (m, y) ∈ sortAsc leKey (df.filterMap keyOf).dedup :=
      (sortAsc_perm leKey _).mem_iff.mpr h2
    unfold ev_counts_by_make_year
    exact List.mem_map_of_mem _ h3
  · have hperm : df.Perm (r :: df.erase r) := List.perm_cons_erase hr
    rw [List.count_eq_countP, List.count_eq_countP,
      List.Perm.countP_eq _ (hperm.filterMap keyOf),
      List.filterMap_cons_some hkey, List.countP_cons]
    simp

/-- Witness for C6: in `missingRangeRows` the first row has `Make = Tesla`,
`Model Year = 2020`, type `BEV` and a missing range; it is counted in the
`(Tesla, 2020)` group but contributes no value to the `BEV` mean. -/
theorem C6_missing_range_counted_in_A_not_in_B_witness :
    (load_and_analyze_data fsMissingRange FILE_PATH).tables
        = some (top_10_ev_counts missingRangeRows, avg_range_by_type missingRangeRows)
    ∧ (⟨"Tesla", 2020, (missingRangeRows.filterMap keyOf).count ("Tesla", 2020)⟩ : ARow)
        ∈ ev_counts_by_make_year missingRangeRows
    ∧ (missingRangeRows.filterMap keyOf).count ("Tesla", 2020)
        = ((missingRangeRows.erase
            ⟨some "Tesla", some 2020, some "BEV", none⟩).filterMap keyOf).count
              ("Tesla", 2020) + 1
    ∧ rangesOfType missingRangeRows "BEV"
        = rangesOfType (missingRangeRows.erase
            ⟨some "Tesla", some 2020, some "BEV", none⟩) "BEV"
    ∧ meanOf (rangesOfType missingRangeRows "BEV")
        = meanOf (rangesOfType (missingRangeRows.erase
            ⟨some "Tesla", some 2020, some "BEV", none⟩) "BEV") :=
  C6_missing_range_counted_in_A_not_in_B fsMissingRange FILE_PATH
    missingRangeRows ⟨some "Tesla", some 2020, some "BEV", none⟩
    "Tesla" 2020 "BEV" rfl (List.Mem.head _) rfl rfl rfl

/-- **C7.** If loading fails — `FileNotFoundError` or any other error — the
function surfaces an error message, returns no tables, and the line-61
guard suppresses all rendering; a non-existent path produces exactly the
`FileNotFound` message. -/
theorem C7_load_failure_no_tables (fs : FS) (path : String)
    (hfail : fs path = none ∨ ∃ e, fs path = some (Except.error e)) :
    (load_and_analyze_data fs path).errorMsg.isSome = true
    ∧ (load_and_analyze_data fs path).tables = none
    ∧ rendered (load_and_analyze_data fs path) = false
    ∧ (fs path = none →
        (load_and_analyze_data fs path).errorMsg = some (fileNotFoundMsg path)) := by
  rcases hfail with h | ⟨e, h⟩
  · refine ⟨?_, ?_, ?_, ?_⟩ <;> simp [load_and_analyze_data, rendered, h]
  · refine ⟨?_, ?_, ?_, ?_⟩ <;> simp [load_and_analyze_data, rendered, h]

/-- Witness for C7 at an empty filesystem: the hard-coded path does not
exist, so the load fails with the `FileNotFound` message and no tables. -/
theorem C7_load_failure_no_tables_witness :
    (load_and_analyze_data fsEmpty FILE_PATH).errorMsg.isSome = true
    ∧ (load_and_analyze_data fsEmpty FILE_PATH).tables = none
    ∧ rendered (load_and_analyze_data fsEmpty FILE_PATH) = false
    ∧ (fsEmpty FILE_PATH = none →
        (load_and_analyze_data fsEmpty FILE_PATH).errorMsg
          = some (fileNotFoundMsg FILE_PATH)) :=
  C7_load_failure_no_tables fsEmpty FILE_PATH (Or.inl rfl)

/-- **C8 counterexample.** A failed load also populates the cache:
after one call on an empty filesystem the cache is no longer empty (it
stores the failure output), and a second call with the same path does not
run the body again — it does not re-attempt the load, contrary to the
claim that only successful loads populate the cache. -/
theorem C8_counterexample :
    (cached_call fsEmpty processStartCache "p").cache ≠ processStartCache
    ∧ (cached_call fsEmpty processStartCache "p").out.errorMsg.isSome = true
    ∧ (cached_call fsEmpty processStartCache "p").out.tables = none
    ∧ (cached_call fsEmpty
        (cached_call fsEmpty processStartCache "p").cache "p").bodyRan = false := by
  decide

/-- **C8 amended.** The memoization cache, keyed by the input path, starts
empty at process start and is populated on the first call for each distinct
path with whatever the body returned — whether the load succeeded or
failed (`st.cache_data` stores the returned `(None, None)` of a caught
failure too, so a later call with the same path does **not** re-attempt
the load) — and is never invalidated during the lifetime of the process: a hit
returns the stored output and leaves the cache unchanged without running
the body. -/
theorem C8_amended_cache_lifecycle (fs : FS) (cache : List (String × AppOutput))
    (path : String) :
    processStartCache = []
    ∧ (cache.lookup path = none →
        (cached_call fs cache path).cache
            = cache ++ [(path, load_and_analyze_data fs path)]
          ∧ (cached_call fs cache path).bodyRan = true
          ∧ (cached_call fs cache path).out = load_and_analyze_data fs path)
    ∧ (∀ o, cache.lookup path = some o →
        (cached_call fs cache path).out = o
          ∧ (cached_call fs cache path).cache = cache
          ∧ (cached_call fs cache path).bodyRan = false) := by
  refine ⟨rfl, ?_, ?_⟩
  · intro h
    unfold cached_call
    rw [h]
    exact ⟨rfl, rfl, rfl⟩
  · intro o h
    unfold cached_call
    rw [h]
    exact ⟨rfl, rfl, rfl⟩

/-- Witness for the amended C8 at an empty filesystem, empty cache and a
concrete path. -/
theorem C8_amended_cache_lifecycle_witness :
    processStartCache = []
    ∧ (List.lookup "p" ([] : List (String × AppOutput)) = none →
        (cached_call fsEmpty [] "p").cache
            = [] ++ [("p", load_and_analyze_data fsEmpty "p")]
          ∧ (cached_call fsEmpty [] "p").bodyRan = true
          ∧ (cached_call fsEmpty [] "p").out = load_and_analyze_data fsEmpty "p")
    ∧ (∀ o, List.lookup "p" ([] : List (String × AppOutput)) = some o →
        (cached_call fsEmpty [] "p").out = o
          ∧ (cached_call fsEmpty [] "p").cache = []
          ∧ (cached_call fsEmpty [] "p").bodyRan = false) :=
  C8_amended_cache_lifecycle fsEmpty [] "p"

/-- **C10.** For every input dataset that loads successfully, a row whose
`Electric Vehicle Type` is missing is excluded from table B entirely:
removing it changes nothing in table B, and every row of table B carries a
type value that is present in the input rows (so no row stands for a
missing type). -/
theorem C10_missing_type_excluded_from_B (fs : FS) (path : String)
    (df : List Row) (r : Row) (hload : fs path = some (Except.ok df))
    (hr : r ∈ df) (ht : r.evType = none) :
    (load_and_analyze_data fs path).tables
        = some (top_10_ev_counts df, avg_range_by_type df)
    ∧ avg_range_by_type df = avg_range_by_type (df.erase r)
    ∧ ∀ b ∈ avg_range_by_type df, b.evType ∈ df.filterMap fun s => s.evType := by
  have hkeys : (df.erase r).filterMap (fun s => s.evType)
      = df.filterMap fun s => s.evType :=
    erase_filterMap_of_none _ r ht df
  have hranges : ∀ t, rangesOfType (df.erase r) t = rangesOfType df t := by
    intro t
    unfold rangesOfType
    rw [erase_filter_of_neg (fun s => decide (s.evType = some t)) r (by simp [ht]) df]
  refine ⟨by rw [load_ok fs path df hload], ?_, ?_⟩
  · have hgrouped : avg_range_by_type_grouped (df.erase r)
        = avg_range_by_type_grouped df := by
      unfold avg_range_by_type_grouped
      rw [hkeys]
      exact List.map_congr_left fun t _ => by rw [hranges t]
    unfold avg_range_by_type
    rw [hgrouped]
  · intro b hb
    have hb1 : b ∈ avg_range_by_type_grouped df :=
      (sort_values_avg_desc_perm _).mem_iff.mp hb
    unfold avg_range_by_type_grouped at hb1
    rcases List.mem_map.mp hb1 with ⟨t, htk, hbt⟩
    have ht2 : t ∈ (df.filterMap fun s => s.evType).dedup :=
      (sortAsc_perm leStr _).mem_iff.mp htk
    have ht3 : t ∈ df.filterMap fun s => s.evType := List.mem_dedup.mp ht2
    rw [← hbt]
    exact ht3

/-- Witness for C10: in `missingTypeRows` the first row has no type and is
excluded from table B. -/
theorem C10_missing_type_excluded_from_B_witness :
    (load_and_analyze_data fsMissingType FILE_PATH).tables
        = some (top_10_ev_counts missingTypeRows, avg_range_by_type missingTypeRows)
    ∧ avg_range_by_type missingTypeRows
        = avg_range_by_type (missingTypeRows.erase
            ⟨some "Tesla", some 2020, none, some 100⟩)
    ∧ ∀ b ∈ avg_range_by_type missingTypeRows,
        b.evType ∈ missingTypeRows.filterMap fun s => s.evType :=
  C10_missing_type_excluded_from_B fsMissingType FILE_PATH missingTypeRows
    ⟨some "Tesla", some 2020, none, some 100⟩ rfl (List.Mem.head _) rfl

end EVApp
